import Mathlib

/-!
Shallow embedding of the getINVOLVED connector pipeline
(backend/connectors/getinvolved.py) of the RUEventsHub repository.

Modelling conventions:
* Python strings are Lean `String`s; `None`-able values are `Option`s.
* Python truthiness on strings and lists is modelled by explicit emptiness
  tests; machine integers do not occur except inside SHA-256, where all
  words are `Nat` reduced modulo 2^32 explicitly.
* Network calls (requests) and the external store (Supabase) are modelled
  as explicit inputs: fetch outcomes are `Except`-values and the store is
  represented by the list of event ids it currently holds plus the stored
  count it reports, all packaged in a `FetchEnv` record.  The date-time
  parser (dateutil) is an oracle parameter `parse : String -> Option PyDateTime`.
* The durable state file is read once and written at well defined points;
  following the design notes of the specification, the failure state is
  passed explicitly and the persisted copy is identified with the
  in-memory copy (every mutation in the source is immediately saved).
* `datetime.now(timezone.utc)` is an explicit `now : String` input.
-/

set_option maxHeartbeats 1000000

namespace RUEventsHub

/-! ## Basic Python-style string helpers -/

/-- Python whitespace class (ASCII fragment of `\s` and `str.strip`). -/
def isPySpace (c : Char) : Bool :=
  c = ' ' || c = '\t' || c = '\n' || c = '\r' || c.toNat = 11 || c.toNat = 12

/-- ASCII lower-casing of a character, as `str.lower` acts on ASCII text. -/
def pyLowerChar (c : Char) : Char :=
  if 'A' ≤ c && c ≤ 'Z' then Char.ofNat (c.toNat + 32) else c

/-- ASCII fragment of Python `str.lower`. -/
def pyLower (s : String) : String :=
  String.mk (s.data.map pyLowerChar)

/-- Remove leading whitespace from a character list. -/
def dropLeadingWs (l : List Char) : List Char :=
  l.dropWhile isPySpace

/-- Python `str.strip()` on a character list: drop whitespace at both ends. -/
def trimWs (l : List Char) : List Char :=
  ((dropLeadingWs l).reverse.dropWhile isPySpace).reverse

/-- Python `str.strip()` on strings. -/
def pyStrip (s : String) : String :=
  String.mk (trimWs s.data)

/-- Decidable list-prefix test (Python `str.startswith`). -/
def listStartsWith (needle hay : List Char) : Bool :=
  match needle, hay with
  | n :: ns, h :: hs => n = h && listStartsWith ns hs
  | [], _ => true
  | _, [] => false

/-- Decidable substring test (Python `needle in haystack`). -/
def hasSub (needle : List Char) : List Char → Bool
  | [] => needle.isEmpty
  | c :: rest => listStartsWith needle (c :: rest) || hasSub needle rest

/-! ## Constants of the connector (getinvolved.py) -/

def SOURCE : String := "getinvolved"

def API_URL : String := "https://rutgers.campuslabs.com/engage/api/discovery/event/search"

def ICAL_URL : String := "https://rutgers.campuslabs.com/engage/events/ical"

def MAX_FAILURES : Nat := 3

/-! ## Campus inference -/

/-- CAMPUS_KEYWORDS table, in declaration order (Python dicts preserve
insertion order). -/
def CAMPUS_KEYWORDS : List (String × List String) :=
  [("College Ave",
    ["Student Center", "Scott Hall", "College Ave", "Voorhees", "Old Queens",
     "Zimmerli", "Hillel", "Academic Building", "Murray Hall", "Demarest",
     "Paul Robeson", "Hardenbergh", "Clothier", "Seminary", "Eagleton",
     "CASC", "Silvers", "Catholic Center", "Linguistic", "Civic Square",
     "St. Peter", "Little Theatre", "Women\x27s House",
     "Alexander Library", "Nicholas Music", "McCormick", "Bloustein",
     "SC&I", "RU Cinema", "Art History", "Loree", "French Seminar",
     "Student Activities Center"]),
   ("Livingston",
    ["RAC", "Jersey Mike", "Tillett", "Tillet", "Livi", "Livingston",
     "RBS", "Ludwig", "Lucy Stone", "Hatchery", "The Yard",
     "Graduate Student Lounge", "The Cage", "Richardson", "DSC Lounge"]),
   ("Busch",
    ["Werblin", "Busch", "Hill Center", "SERC",
     "BSC", "BME", "Biomedical Engineering", "Serin", "Richard Weeks",
     "Research Tower", "Proteomics", "Life Science", "CoRE",
     "Rutgers Golf"]),
   ("Cook/Douglass",
    ["Cook", "Douglass", "Hickman", "Passion Puddle",
     "Ruth Adams", "Marine and Coastal Sciences", "ENR",
     "Rutgers Botanical", "ABE"])]

def ONLINE_KEYWORDS : List String := ["zoom", "online", "virtual", "teams", "webinar"]

/-- Locations that are explicitly TBD: kept Unknown rather than Off-Campus. -/
def TBD_PATTERNS : List String := ["tbd", "to be determined", "to be announced", "tba"]

def OFF_CAMPUS_KEYWORDS : List String :=
  ["Eastern Star Rehabilitation", "Mitsuwa", "Liberty Science Center",
   "United Nations", "Utica University", "Buccleuch", "Johnson Park",
   "New Orleans", "Jersey City", "New York City", "Newark"]

/-- First campus (in declaration order) one of whose keywords occurs,
lower-cased, in the lower-cased location text. -/
def campusMatch (locLower : List Char) : Option String :=
  (CAMPUS_KEYWORDS.find? (fun p => p.2.any (fun kw => hasSub (pyLower kw).data locLower))).map
    Prod.fst

/-- Embedding of `infer_campus`.  The truthiness guard `if not location`
also sends the empty string to Unknown. -/
def infer_campus (location : Option String) : String :=
  match location with
  | none => "Unknown"
  | some s =>
    if s = "" then ("Unknown")
    else
      let locLower := (pyLower s).data
      if TBD_PATTERNS.any (fun pat => listStartsWith pat.data locLower) then ("Unknown")
      else if ONLINE_KEYWORDS.any (fun kw => hasSub kw.data locLower) then ("Online")
      else
        match campusMatch locLower with
        | some campus => campus
        | none =>
          if OFF_CAMPUS_KEYWORDS.any (fun kw => hasSub (pyLower kw).data locLower) then
            "Off-Campus"
          else ("Unknown")

/-! ## SHA-256 (hashlib.sha256) over byte lists

All words are `Nat`s kept below 2^32 by explicit reduction. -/

def w32 (n : Nat) : Nat := n % 4294967296

def rotr32 (n x : Nat) : Nat := w32 ((x >>> n) ||| (x <<< (32 - n)))

def xor32 (a b : Nat) : Nat := a ^^^ b

def sha256K : List Nat :=
  [1116352408, 1899447441, 3049323471, 3921009573, 961987163,
   1508970993, 2453635748, 2870763221, 3624381080, 310598401,
   607225278, 1426881987, 1925078388, 2162078206, 2614888103,
   3248222580, 3835390401, 4022224774, 264347078, 604807628,
   770255983, 1249150122, 1555081692, 1996064986, 2554220882,
   2821834349, 2952996808, 3210313671, 3336571891, 3584528711,
   113926993, 338241895, 666307205, 773529912, 1294757372,
   1396182291, 1695183700, 1986661051, 2177026350, 2456956037,
   2730485921, 2820302411, 3259730800, 3345764771, 3516065817,
   3600352804, 4094571909, 275423344, 430227734, 506948616,
   659060556, 883997877, 958139571, 1322822218, 1537002063,
   1747873779, 1955562222, 2024104815, 2227730452, 2361852424,
   2428436474, 2756734187, 3204031479, 3329325298]

structure Hash8 where
  a : Nat
  b : Nat
  c : Nat
  d : Nat
  e : Nat
  f : Nat
  g : Nat
  h : Nat

def sha256H0 : Hash8 :=
  ⟨1779033703, 3144134277, 1013904242, 2773480762,
   1359893119, 2600822924, 528734635, 1541459225⟩

def smallSigma0 (x : Nat) : Nat := xor32 (xor32 (rotr32 7 x) (rotr32 18 x)) (x >>> 3)

def smallSigma1 (x : Nat) : Nat := xor32 (xor32 (rotr32 17 x) (rotr32 19 x)) (x >>> 10)

def bigSigma0 (x : Nat) : Nat := xor32 (xor32 (rotr32 2 x) (rotr32 13 x)) (rotr32 22 x)

def bigSigma1 (x : Nat) : Nat := xor32 (xor32 (rotr32 6 x) (rotr32 11 x)) (rotr32 25 x)

def chOp (e f g : Nat) : Nat := xor32 (e &&& f) ((e ^^^ 4294967295) &&& g)

def majOp (a b c : Nat) : Nat := xor32 (xor32 (a &&& b) (a &&& c)) (b &&& c)

/-- Big-endian 32-bit word from four bytes. -/
def wordOfBytes (b0 b1 b2 b3 : Nat) : Nat :=
  ((b0 <<< 24) ||| (b1 <<< 16) ||| (b2 <<< 8) ||| b3)

/-- Group a 64-byte block into sixteen big-endian words. -/
def blockWords : List Nat → List Nat
  | b0 :: b1 :: b2 :: b3 :: rest => wordOfBytes b0 b1 b2 b3 :: blockWords rest
  | _ => []

/-- Extend sixteen schedule words to sixty-four. -/
def extendSchedule (ws : List Nat) : List Nat :=
  (List.range 48).foldl
    (fun acc _ =>
      let n := acc.length
      let wNew := w32 (smallSigma1 (acc.getD (n - 2) 0) + acc.getD (n - 7) 0 +
                       smallSigma0 (acc.getD (n - 15) 0) + acc.getD (n - 16) 0)
      acc ++ [wNew])
    ws

/-- One SHA-256 round. -/
def sha256Round (st : Hash8) (k w : Nat) : Hash8 :=
  let t1 := w32 (st.h + bigSigma1 st.e + chOp st.e st.f st.g + k + w)
  let t2 := w32 (bigSigma0 st.a + majOp st.a st.b st.c)
  ⟨w32 (t1 + t2), st.a, st.b, st.c, w32 (st.d + t1), st.e, st.f, st.g⟩

/-- Compress one 64-byte block into the running hash value. -/
def sha256Compress (hv : Hash8) (block : List Nat) : Hash8 :=
  let ws := extendSchedule (blockWords block)
  let fin := (sha256K.zip ws).foldl (fun st kw => sha256Round st kw.1 kw.2) hv
  ⟨w32 (hv.a + fin.a), w32 (hv.b + fin.b), w32 (hv.c + fin.c), w32 (hv.d + fin.d),
   w32 (hv.e + fin.e), w32 (hv.f + fin.f), w32 (hv.g + fin.g), w32 (hv.h + fin.h)⟩

/-- Split a byte list into 64-byte blocks; `fuel` bounds the recursion and is
instantiated with the list length. -/
def toBlocks : Nat → List Nat → List (List Nat)
  | 0, _ => []
  | _ + 1, [] => []
  | fuel + 1, l => l.take 64 :: toBlocks fuel (l.drop 64)

/-- SHA-256 padding: append 0x80, zero bytes, and the 64-bit big-endian
bit length. -/
def sha256Pad (msg : List Nat) : List Nat :=
  let len := msg.length
  let zeros := (119 - len % 64) % 64
  let bitLen := len * 8
  msg ++ [0x80] ++ List.replicate zeros 0 ++
    [(bitLen >>> 56) % 256, (bitLen >>> 48) % 256, (bitLen >>> 40) % 256,
     (bitLen >>> 32) % 256, (bitLen >>> 24) % 256, (bitLen >>> 16) % 256,
     (bitLen >>> 8) % 256, bitLen % 256]

/-- Big-endian bytes of one 32-bit word. -/
def bytesOfWord (w : Nat) : List Nat :=
  [(w >>> 24) % 256, (w >>> 16) % 256, (w >>> 8) % 256, w % 256]

/-- SHA-256 digest (32 bytes) of a byte list. -/
def sha256Bytes (msg : List Nat) : List Nat :=
  let padded := sha256Pad msg
  let hv := (toBlocks padded.length padded).foldl sha256Compress sha256H0
  bytesOfWord hv.a ++ bytesOfWord hv.b ++ bytesOfWord hv.c ++ bytesOfWord hv.d ++
  bytesOfWord hv.e ++ bytesOfWord hv.f ++ bytesOfWord hv.g ++ bytesOfWord hv.h

def hexDigitChar (n : Nat) : Char :=
  (("0123456789abcdef").data).getD n '0'

def byteToHex (b : Nat) : List Char :=
  [hexDigitChar (b / 16), hexDigitChar (b % 16)]

/-- Lower-case hex rendering of a byte list (hashlib hexdigest). -/
def hexOfBytes : List Nat → List Char
  | [] => []
  | b :: rest => byteToHex b ++ hexOfBytes rest

/-- UTF-8 encoding of one character (Python str.encode). -/
def charUtf8 (c : Char) : List Nat :=
  let n := c.toNat
  if n < 128 then [n]
  else if n < 2048 then [192 ||| (n >>> 6), 128 ||| (n &&& 63)]
  else if n < 65536 then
    [224 ||| (n >>> 12), 128 ||| ((n >>> 6) &&& 63), 128 ||| (n &&& 63)]
  else
    [240 ||| (n >>> 18), 128 ||| ((n >>> 12) &&& 63), 128 ||| ((n >>> 6) &&& 63),
     128 ||| (n &&& 63)]

/-- UTF-8 encoding of a string (Python str.encode). -/
def utf8Bytes (s : String) : List Nat :=
  s.data.foldr (fun c acc => charUtf8 c ++ acc) []

/-- Full lower-case hex digest of the SHA-256 of a string, 64 characters. -/
def sha256HexDigest (s : String) : List Char :=
  hexOfBytes (sha256Bytes (utf8Bytes s))

/-- Embedding of `make_event_id`: first 32 hex characters of the SHA-256 of
the three fields joined with a pipe. -/
def make_event_id (title : String) (start_time : String) (source : String) : String :=
  let raw := title ++ "|" ++ start_time ++ "|" ++ source
  String.mk ((sha256HexDigest raw).take 32)

/-! ## HTML stripping (strip_html) -/

/-- Single left-to-right pass implementing `re.sub` of the tag pattern
`<[^>]+>` by a single space: `pending = some buf` means a potential tag was
opened by an unmatched angle bracket and `buf` holds the (reversed)
characters read since then, none of which closes the bracket. -/
def stripGo : Option (List Char) → List Char → List Char
  | none, [] => []
  | some buf, [] => '<' :: buf.reverse
  | none, c :: rest =>
    if c = '<' then stripGo (some []) rest else c :: stripGo none rest
  | some buf, c :: rest =>
    if c = '>' then
      if buf.isEmpty then '<' :: '>' :: stripGo none rest
      else ' ' :: stripGo none rest
    else stripGo (some (c :: buf)) rest

/-- Replace every `<[^>]+>` match by one space (`_HTML_TAG_RE.sub`). -/
def stripTags (l : List Char) : List Char :=
  stripGo none l

/-- Replace every maximal whitespace run by a single space
(`_WHITESPACE_RE.sub`); the flag records whether the previous character was
part of a whitespace run. -/
def collapseGo : Bool → List Char → List Char
  | _, [] => []
  | inRun, c :: rest =>
    if isPySpace c then
      if inRun then collapseGo true rest else ' ' :: collapseGo true rest
    else c :: collapseGo false rest

def collapseWs (l : List Char) : List Char :=
  collapseGo false l

/-- Tag removal, whitespace collapsing and stripping in source order. -/
def cleanChars (l : List Char) : List Char :=
  trimWs (collapseWs (stripTags l))

/-- Embedding of `strip_html`; the `if not text` truthiness guard also maps
the empty string to None. -/
def strip_html (text : Option String) : Option String :=
  match text with
  | none => none
  | some t =>
    if t = "" then none
    else
      let cleaned := cleanChars t.data
      if cleaned.isEmpty then none else some (String.mk cleaned)

/-! ### Specification-side predicates for sanitizer outputs

These predicates are written from the words of the specification (no tag
left, whitespace collapsed, trimmed) and are compared against the
embedded `strip_html`. -/

/-- A match of the tag pattern starts at the head of the list: an opening
angle bracket followed by at least one character other than the closing
bracket and eventually a closing bracket. -/
def startsTag : List Char → Bool
  | c :: d :: rest => c = '<' && d != '>' && (d :: rest).contains '>'
  | _ => false

/-- Some suffix of the list starts with a match of the tag pattern. -/
def hasTagB : List Char → Bool
  | [] => false
  | c :: rest => startsTag (c :: rest) || hasTagB rest

/-- Every whitespace character of the list is a plain space. -/
def allWsSingle (l : List Char) : Bool :=
  l.all (fun c => !(isPySpace c) || c = ' ')

/-- No two adjacent characters are both spaces. -/
def noDoubleSpace : List Char → Bool
  | c :: d :: rest => !(c = ' ' && d = ' ') && noDoubleSpace (d :: rest)
  | _ => true

/-! ## Failure state / kill switch -/

/-- Per-source failure state.  The source stores this under the
"getinvolved" key of state.json; a missing key together with the
`get`/`setdefault` defaults of the source behaves exactly like this record
with zero failures, an inactive kill switch and absent timestamps, so the
state dict is flattened to its single relevant entry. -/
structure SourceState where
  consecutive_failures : Nat
  kill_switch : Bool
  last_success : Option String
  last_attempt : Option String
deriving DecidableEq

/-- Default entry written by `_load_state` when the file is unusable. -/
def defaultSourceState : SourceState :=
  { consecutive_failures := 0, kill_switch := false,
    last_success := none, last_attempt := none }

/-- Embedding of `_load_state`.  `file` is the contents of state.json
(`none` when the file does not exist) and `decode` is the oracle for
`json.loads` composed with extraction of the "getinvolved" entry,
returning `none` when the text is not valid JSON. -/
def _load_state (decode : String → Option SourceState) (file : Option String) :
    SourceState :=
  match file with
  | none => defaultSourceState
  | some txt =>
    match decode txt with
    | none => defaultSourceState
    | some loaded => loaded

/-- Embedding of `_record_failure`; `now` stands for
`datetime.now(timezone.utc).isoformat()`.  Persistence via `_save_state` is
identified with returning the new state. -/
def _record_failure (now : String) (st : SourceState) : SourceState :=
  let cf := st.consecutive_failures + 1
  { st with
    consecutive_failures := cf,
    last_attempt := some now,
    kill_switch := if MAX_FAILURES ≤ cf then true else st.kill_switch }

/-- Embedding of `_record_success`. -/
def _record_success (now : String) (st : SourceState) : SourceState :=
  { st with
    consecutive_failures := 0, kill_switch := false,
    last_success := some now, last_attempt := some now }

/-! ## Date-time model (_to_utc_iso) -/

/-- Python date or datetime values as produced by icalendar and dateutil.
`tzOffsetMinutes = none` models a naive datetime; `some k` a tzinfo whose
UTC offset is `k` minutes. -/
inductive PyDateTime where
  | date (y m d : Int)
  | datetime (y m d hh mi ss : Int) (tzOffsetMinutes : Option Int)
deriving DecidableEq

/-- Argument type of `_to_utc_iso`: a string or an already structured
date/datetime. -/
inductive DtValue where
  | str (s : String)
  | time (t : PyDateTime)
deriving DecidableEq

/-- Days since 1970-01-01 of a proleptic Gregorian civil date
(standard days-from-civil algorithm, floor division throughout). -/
def daysFromCivil (y m d : Int) : Int :=
  let y2 := if m ≤ 2 then y - 1 else y
  let era := Int.fdiv y2 400
  let yoe := y2 - era * 400
  let mp := if 2 < m then m - 3 else m + 9
  let doy := Int.fdiv (153 * mp + 2) 5 + d - 1
  let doe := yoe * 365 + Int.fdiv yoe 4 - Int.fdiv yoe 100 + doy
  era * 146097 + doe - 719468

/-- Civil date from days since 1970-01-01 (inverse of `daysFromCivil`). -/
def civilFromDays (z0 : Int) : Int × Int × Int :=
  let z := z0 + 719468
  let era := Int.fdiv z 146097
  let doe := z - era * 146097
  let yoe := Int.fdiv (doe - Int.fdiv doe 1460 + Int.fdiv doe 36524 - Int.fdiv doe 146096) 365
  let y := yoe + era * 400
  let doy := doe - (365 * yoe + Int.fdiv yoe 4 - Int.fdiv yoe 100)
  let mp := Int.fdiv (5 * doy + 2) 153
  let d := doy - Int.fdiv (153 * mp + 2) 5 + 1
  let m := if mp < 10 then mp + 3 else mp - 9
  (if m ≤ 2 then y + 1 else y, m, d)

/-- Zero-padded decimal rendering of a nonnegative Int on `width` digits. -/
def padInt (width : Nat) (n : Int) : String :=
  let s := toString n.toNat
  String.mk (List.replicate (width - s.length) '0') ++ s

/-- ISO-8601 rendering of a UTC instant, matching
`datetime.isoformat()` for an aware UTC datetime at seconds resolution. -/
def formatUtcIso (y m d hh mi ss : Int) : String :=
  padInt 4 y ++ "-" ++ padInt 2 m ++ "-" ++ padInt 2 d ++ "T" ++
  padInt 2 hh ++ ":" ++ padInt 2 mi ++ ":" ++ padInt 2 ss ++ "+00:00"

/-- Convert a Python date/datetime to UTC and render it:
a plain date becomes midnight UTC, a naive datetime is assumed UTC,
an aware datetime is shifted by its offset (`astimezone(timezone.utc)`). -/
def renderUtcIso : PyDateTime → String
  | .date y m d => formatUtcIso y m d 0 0 0
  | .datetime y m d hh mi ss tz =>
    let off := tz.getD 0
    let total := daysFromCivil y m d * 1440 + hh * 60 + mi - off
    let day := Int.fdiv total 1440
    let minOfDay := total - day * 1440
    let c := civilFromDays day
    formatUtcIso c.1 c.2.1 c.2.2 (Int.fdiv minOfDay 60) (minOfDay % 60) ss

/-- Embedding of `_to_utc_iso`; `parse` is the dateutil oracle, returning
`none` exactly when `dateutil.parser.parse` raises. -/
def _to_utc_iso (parse : String → Option PyDateTime) : Option DtValue → Option String
  | none => none
  | some (.str s) =>
    match parse s with
    | none => none
    | some t => some (renderUtcIso t)
  | some (.time t) => some (renderUtcIso t)

/-! ## Canonical event and the two normalizers -/

structure Event where
  event_id : String
  source : String
  title : String
  description : Option String
  start_time : String
  end_time : Option String
  location : Option String
  campus : String
  organization : Option String
  category : Option String
  source_url : String
  last_seen : String
deriving DecidableEq

/-- Organization id field of the API: a number or a string in the wild. -/
inductive OrgId where
  | int (n : Nat)
  | str (s : String)
deriving DecidableEq

/-- Category names field of the API: a list or a single string. -/
inductive Cats where
  | list (l : List String)
  | str (s : String)
deriving DecidableEq

/-- Raw Campus Labs API event record (the fields the connector reads). -/
structure ApiRaw where
  name : Option String
  startsOn : Option String
  endsOn : Option String
  location : Option String
  description : Option String
  organizationName : Option String
  organizationId : Option OrgId
  categoryNames : Option Cats
  categoryName : Option String
  id : Option Nat
deriving DecidableEq

/-- Truthiness chain for the organization field:
`organizationName or organizationId or ""`, with ints rendered in decimal. -/
def apiOrgString (raw : ApiRaw) : String :=
  let fromId :=
    match raw.organizationId with
    | some (.int n) => if n = 0 then ("") else toString n
    | some (.str s) => s
    | none => ""
  match raw.organizationName with
  | some s => if s = "" then fromId else s
  | none => fromId

/-- Truthiness chain for the category field followed by the
`isinstance(categories, str)` wrap:
`categoryNames or categoryName or []`. -/
def apiCategoryList (raw : ApiRaw) : List String :=
  let fallback :=
    match raw.categoryName with
    | some s => if s = "" then [] else [s]
    | none => []
  match raw.categoryNames with
  | some (.list l) => if l.isEmpty then fallback else l
  | some (.str s) => if s = "" then fallback else [s]
  | none => fallback

/-- Embedding of `_normalize_api_event`. -/
def _normalize_api_event (parse : String → Option PyDateTime) (now : String)
    (raw : ApiRaw) : Option Event :=
  let title := pyStrip ((raw.name).getD (""))
  if title = "" then none
  else
    match _to_utc_iso parse ((raw.startsOn).map DtValue.str) with
    | none => none
    | some start_iso =>
      let end_iso := _to_utc_iso parse ((raw.endsOn).map DtValue.str)
      let location0 := pyStrip ((raw.location).getD (""))
      let location := if location0 = "" then none else some location0
      let org0 := pyStrip (apiOrgString raw)
      let org := if org0 = "" then none else some org0
      let joined := pyStrip (String.intercalate (", ") ((apiCategoryList raw).filter (fun c => c ≠ "")))
      let category := if joined = "" then none else some joined
      let source_url :=
        match raw.id with
        | some n => if n = 0 then API_URL else ("https://rutgers.campuslabs.com/engage/event/") ++ toString n
        | none => API_URL
      some
        { event_id := make_event_id title start_iso SOURCE,
          source := SOURCE,
          title := title,
          description := strip_html raw.description,
          start_time := start_iso,
          end_time := end_iso,
          location := location,
          campus := infer_campus location,
          organization := org,
          category := category,
          source_url := source_url,
          last_seen := now }

/-- Raw icalendar VEVENT component (the fields the connector reads);
`name` is the component name checked against "VEVENT" by the fetcher. -/
structure IcalComponent where
  name : String
  summary : Option String
  dtstart : Option PyDateTime
  dtend : Option PyDateTime
  location : Option String
  description : Option String
  url : Option String
deriving DecidableEq

/-- Embedding of `_normalize_ical_event`. -/
def _normalize_ical_event (parse : String → Option PyDateTime) (now : String)
    (c : IcalComponent) : Option Event :=
  let title := pyStrip ((c.summary).getD (""))
  if title = "" then none
  else
    match _to_utc_iso parse ((c.dtstart).map DtValue.time) with
    | none => none
    | some start_iso =>
      let end_iso := _to_utc_iso parse ((c.dtend).map DtValue.time)
      let location0 := pyStrip ((c.location).getD (""))
      let location := if location0 = "" then none else some location0
      let desc0 := pyStrip ((c.description).getD (""))
      let description := strip_html (if desc0 = "" then none else some desc0)
      let url0 := pyStrip ((c.url).getD (""))
      let url := if url0 = "" then ICAL_URL else url0
      some
        { event_id := make_event_id title start_iso SOURCE,
          source := SOURCE,
          title := title,
          description := description,
          start_time := start_iso,
          end_time := end_iso,
          location := location,
          campus := infer_campus location,
          organization := none,
          category := none,
          source_url := url,
          last_seen := now }

/-- Normalisation loop of `_fetch_via_ical`: walk the components, keep the
VEVENTs whose normalisation succeeds (HTTP retrieval and parsing of the
calendar document are modelled by the `FetchEnv` outcome). -/
def icalEventsOf (parse : String → Option PyDateTime) (now : String)
    (components : List IcalComponent) : List Event :=
  components.filterMap
    (fun c => if c.name = "VEVENT" then _normalize_ical_event parse now c else none)

/-! ## Reconciler (_upsert_events) and store model -/

/-- Outcome of `_upsert_events`, extended with the actually upserted batch
and whether the store was contacted, so that the effect claims are
statable. -/
structure UpsertOutcome where
  inserted : Nat
  updated : Nat
  batch : List Event
  contactedStore : Bool
deriving DecidableEq

/-- Deduplication loop of `_upsert_events`: keep the first occurrence of
each event_id, tracking the ids seen so far. -/
def dedupeGo (seen : List String) : List Event → List Event
  | [] => []
  | e :: rest =>
    if seen.contains e.event_id then dedupeGo seen rest
    else e :: dedupeGo (e.event_id :: seen) rest

/-- Embedding of `_upsert_events`; `storedIds` is the set of event_ids the
events table currently holds (the `.in_` query returns its intersection
with the batch ids). -/
def _upsert_events (storedIds : List String) (events : List Event) : UpsertOutcome :=
  if events.isEmpty then
    { inserted := 0, updated := 0, batch := [], contactedStore := false }
  else
    let deduped := dedupeGo [] events
    let ids := deduped.map Event.event_id
    let existing_ids := ids.filter (fun i => storedIds.contains i)
    let inserted := (deduped.filter (fun e => ¬ existing_ids.contains e.event_id)).length
    let updated := deduped.length - inserted
    { inserted := inserted, updated := updated, batch := deduped, contactedStore := true }

/-! ## Pipeline orchestrator (run) -/

/-- External world of one run: fetch outcomes (an `Except` error models the
exception raised by the fetcher), the count reported by
`_get_stored_count`, the stored event ids, and whether the upsert call
itself raises. -/
structure FetchEnv where
  apiResult : Except String (List Event)
  icalResult : Except String (List Event)
  storedCount : Nat
  storedIds : List String
  upsertErr : Option String
  now : String

/-- Summary dict returned by `run`. -/
structure RunResult where
  fetched : Nat
  inserted : Nat
  updated : Nat
  source : String
  error : Option String
deriving DecidableEq

/-- Observable side effects of one run, used to state the
no-network / no-store-access claims. -/
structure RunEffects where
  apiAttempted : Bool
  icalAttempted : Bool
  countQueried : Bool
  upsertAttempted : Bool
deriving DecidableEq

/-- Kill-switch message of the blocked early return (without the literal
quotes of the source text). -/
def killSwitchMsg (st : SourceState) : String :=
  "Kill switch is active for " ++ SOURCE ++ " after " ++
  toString st.consecutive_failures ++
  " consecutive failures. Reset backend/state.json manually to resume."

/-- Suspicious-empty-result message. -/
def emptyGuardMsg (stored : Nat) : String :=
  "Fetched 0 events but " ++ toString stored ++
  " are stored. Refusing to wipe data — check the source manually."

/-- Safety check, upsert and state update of `run` once the fetch phase has
produced `events` via `fetch_source`, with the fetch effects `effApi`,
`effIcal` already determined. -/
def runAfterFetch (env : FetchEnv) (st : SourceState) (events : List Event)
    (fetch_source : String) (effApi effIcal : Bool) :
    RunResult × SourceState × RunEffects :=
  if events.length = 0 then
    if 50 ≤ env.storedCount then
      ({ fetched := 0, inserted := 0, updated := 0, source := fetch_source,
         error := some (emptyGuardMsg env.storedCount) },
       _record_failure env.now st,
       { apiAttempted := effApi, icalAttempted := effIcal,
         countQueried := true, upsertAttempted := false })
    else
      ({ fetched := 0, inserted := 0, updated := 0, source := fetch_source,
         error := none },
       _record_success env.now st,
       { apiAttempted := effApi, icalAttempted := effIcal,
         countQueried := true, upsertAttempted := false })
  else
    match env.upsertErr with
    | some exc =>
      ({ fetched := events.length, inserted := 0, updated := 0,
         source := fetch_source, error := some exc },
       _record_failure env.now st,
       { apiAttempted := effApi, icalAttempted := effIcal,
         countQueried := false, upsertAttempted := true })
    | none =>
      let out := _upsert_events env.storedIds events
      ({ fetched := events.length, inserted := out.inserted,
         updated := out.updated, source := fetch_source, error := none },
       _record_success env.now st,
       { apiAttempted := effApi, icalAttempted := effIcal,
         countQueried := false, upsertAttempted := true })

/-- Embedding of `run`.  The loaded state is passed explicitly (see
`_load_state`); the two `except` arms of the source collapse to one
`Except.error` case because the fallback they perform is identical. -/
def run (env : FetchEnv) (st : SourceState) : RunResult × SourceState × RunEffects :=
  if st.kill_switch then
    ({ fetched := 0, inserted := 0, updated := 0, source := "none",
       error := some (killSwitchMsg st) },
     st,
     { apiAttempted := false, icalAttempted := false,
       countQueried := false, upsertAttempted := false })
  else
    match env.apiResult with
    | .ok events => runAfterFetch env st events ("api") true false
    | .error _ =>
      match env.icalResult with
      | .ok events => runAfterFetch env st events ("ical") true true
      | .error ical_exc =>
        ({ fetched := 0, inserted := 0, updated := 0, source := "none",
           error := some ical_exc },
         _record_failure env.now st,
         { apiAttempted := true, icalAttempted := true,
           countQueried := false, upsertAttempted := false })

/-! ## Concrete scenario data used by witnesses and counterexamples -/

/-- Environment in which both fetches fail and the store is empty. -/
def envBothFail0 : FetchEnv :=
  { apiResult := .error ("api boom"), icalResult := .error ("ical boom"),
    storedCount := 0, storedIds := [], upsertErr := none,
    now := "2025-10-12T00:00:00+00:00" }

/-- Environment in which the API succeeds with zero events while 75 events
are stored. -/
def envEmpty75 : FetchEnv :=
  { apiResult := .ok [], icalResult := .error ("unused"),
    storedCount := 75, storedIds := [], upsertErr := none,
    now := "2025-10-12T00:00:00+00:00" }

/-- Oracle standing for dateutil in scenarios where it is never consulted. -/
def noParse : String → Option PyDateTime := fun _ => none

/-- Scenario component: an online event held on Zoom. -/
def compZoom : IcalComponent :=
  { name := "VEVENT", summary := some ("Virtual Game Night"),
    dtstart := some (.datetime 2025 11 1 18 0 0 (some 0)), dtend := none,
    location := some ("Zoom Meeting"), description := none, url := none }

/-- Scenario component: an event at Tillett Hall on Livingston. -/
def compTillett : IcalComponent :=
  { name := "VEVENT", summary := some ("Career Fair"),
    dtstart := some (.datetime 2025 11 2 17 0 0 (some 0)), dtend := none,
    location := some ("Tillett Hall, Livingston Campus"), description := none,
    url := none }

/-- Events of the C4 scenario, as normalized by the iCal fetcher. -/
def scenarioIcalEvents : List Event :=
  icalEventsOf noParse ("2025-10-12T00:00:00+00:00") [compZoom, compTillett]

/-- Environment of the C4 scenario: the API raises (HTTP 429) and the iCal
feed yields the two scenario events. -/
def envFallback : FetchEnv :=
  { apiResult := .error ("429 Client Error"), icalResult := .ok scenarioIcalEvents,
    storedCount := 0, storedIds := [], upsertErr := none,
    now := "2025-10-12T00:00:00+00:00" }

/-- Concrete events for the C6 witness: two share an id. -/
def evA1 : Event :=
  { event_id := "idA", source := SOURCE, title := "First", description := none,
    start_time := "2025-11-01T18:00:00+00:00", end_time := none, location := none,
    campus := "Unknown", organization := none, category := none,
    source_url := API_URL, last_seen := "t" }

def evB : Event :=
  { event_id := "idB", source := SOURCE, title := "Second", description := none,
    start_time := "2025-11-02T18:00:00+00:00", end_time := none, location := none,
    campus := "Unknown", organization := none, category := none,
    source_url := API_URL, last_seen := "t" }

def evA2 : Event :=
  { event_id := "idA", source := SOURCE, title := "First again", description := none,
    start_time := "2025-11-01T18:00:00+00:00", end_time := none, location := none,
    campus := "Unknown", organization := none, category := none,
    source_url := API_URL, last_seen := "t" }

/-- Raw API record with a whitespace-only title. -/
def rawNoTitle : ApiRaw :=
  { name := some ("   "), startsOn := some ("2025-11-01T18:00:00"), endsOn := none,
    location := none, description := none, organizationName := none,
    organizationId := none, categoryNames := none, categoryName := none,
    id := none }

/-- Raw API record with an unparseable start time. -/
def rawBadStart : ApiRaw :=
  { name := some ("Chess Night"), startsOn := some ("not a date"), endsOn := none,
    location := none, description := none, organizationName := none,
    organizationId := none, categoryNames := none, categoryName := none,
    id := none }

/-- Raw API record with a good title and start and a missing end. -/
def rawGood : ApiRaw :=
  { name := some ("Chess Night"), startsOn := some ("2025-11-01T18:00:00"),
    endsOn := none, location := none, description := none,
    organizationName := none, organizationId := none, categoryNames := none,
    categoryName := none, id := none }

/-- Oracle for the C7 witness: parses exactly the one good date string. -/
def oneParse : String → Option PyDateTime := fun s =>
  if s = "2025-11-01T18:00:00" then some (.datetime 2025 11 1 18 0 0 none) else none

/-! ## C10: state loading on missing or corrupt file -/

/-- C10: when the state file is missing, or its contents fail to parse as
JSON, `_load_state` returns the default state with zero consecutive
failures and an inactive kill switch, regardless of what was persisted
before (so a deleted or corrupted file silently resets an active kill
switch). -/
theorem c10_load_state_default (decode : String → Option SourceState)
    (file : Option String)
    (h : file = none ∨ ∃ txt, file = some txt ∧ decode txt = none) :
    _load_state decode file = defaultSourceState ∧
    (_load_state decode file).consecutive_failures = 0 ∧
    (_load_state decode file).kill_switch = false := by
  have hd : _load_state decode file = defaultSourceState := by
    rcases h with h | ⟨txt, hf, hdec⟩
    · rw [h]; rfl
    · rw [hf]; simp [_load_state, hdec]
  exact ⟨hd, by rw [hd]; rfl, by rw [hd]; rfl⟩

/-- C10 witness: a corrupt state file (decoder rejects the text) loads as
the default state. -/
theorem c10_load_state_default_witness :
    _load_state (fun _ => none) (some ("not valid json")) = defaultSourceState :=
  (c10_load_state_default (fun _ => none) (some ("not valid json"))
    (Or.inr ⟨"not valid json", rfl, rfl⟩)).1

/-! ## C5: TBD locations infer Unknown -/

/-- C5: every location whose lower-cased text starts with one of the TBD
patterns infers campus Unknown, never Off-Campus, whatever other keywords
the string also contains. -/
theorem c5_tbd_unknown (loc : String) (pat : String)
    (hpat : pat ∈ TBD_PATTERNS)
    (hpre : listStartsWith pat.data (pyLower loc).data = true) :
    infer_campus (some loc) = "Unknown" ∧ infer_campus (some loc) ≠ "Off-Campus" := by
  have hany : TBD_PATTERNS.any (fun p => listStartsWith p.data (pyLower loc).data) = true :=
    List.any_eq_true.mpr ⟨pat, hpat, hpre⟩
  have hu : infer_campus (some loc) = "Unknown" := by
    by_cases h : loc = ""
    · simp [infer_campus, h]
    · simp [infer_campus, h, hany]
  refine ⟨hu, ?_⟩
  rw [hu]
  decide

/-- C5 witness: a TBD location that also contains an online keyword and an
off-campus venue keyword still infers Unknown. -/
theorem c5_tbd_unknown_witness :
    infer_campus (some ("TBD - Zoom Room, Jersey City")) = "Unknown" :=
  (c5_tbd_unknown ("TBD - Zoom Room, Jersey City") ("tbd") (by decide) (by decide)).1

/-! ## C2: suspicious empty fetch with a populated store -/

/-- C2: when the fetch phase succeeds with zero events while at least 50
events are stored, the run performs no upsert, records a failure, and
returns a zero-count result whose error is present. -/
theorem c2_suspicious_empty (env : FetchEnv) (st : SourceState) (srcTag : String)
    (hks : st.kill_switch = false)
    (hfetch : (env.apiResult = .ok [] ∧ srcTag = "api") ∨
      ((∃ ea, env.apiResult = .error ea) ∧ env.icalResult = .ok [] ∧ srcTag = "ical"))
    (hstored : 50 ≤ env.storedCount) :
    (run env st).1 =
      { fetched := 0, inserted := 0, updated := 0, source := srcTag,
        error := some (emptyGuardMsg env.storedCount) } ∧
    (run env st).1.error ≠ none ∧
    (run env st).2.1 = _record_failure env.now st ∧
    (run env st).2.1.consecutive_failures = st.consecutive_failures + 1 ∧
    (run env st).2.2.upsertAttempted = false := by
  have hrun : run env st =
      ({ fetched := 0, inserted := 0, updated := 0, source := srcTag,
         error := some (emptyGuardMsg env.storedCount) },
       _record_failure env.now st,
       { apiAttempted := true, icalAttempted := srcTag = "ical",
         countQueried := true, upsertAttempted := false }) := by
    rcases hfetch with ⟨hapi, hsrc⟩ | ⟨⟨ea, hapi⟩, hical, hsrc⟩
    · subst hsrc
      simp [run, hks, hapi, runAfterFetch, hstored]
    · subst hsrc
      simp [run, hks, hapi, hical, runAfterFetch, hstored]
  rw [hrun]
  refine ⟨rfl, by simp, rfl, ?_, rfl⟩
  simp [_record_failure]

/-- C2 witness: API returns an empty page set while 75 events are stored;
the failure counter moves from 0 to 1 and no upsert happens. -/
theorem c2_suspicious_empty_witness :
    (run envEmpty75 defaultSourceState).1.error ≠ none ∧
    (run envEmpty75 defaultSourceState).2.1.consecutive_failures = 1 ∧
    (run envEmpty75 defaultSourceState).2.2.upsertAttempted = false := by
  have h := c2_suspicious_empty envEmpty75 defaultSourceState ("api") rfl
    (Or.inl ⟨rfl, rfl⟩) (by decide)
  exact ⟨h.2.1, h.2.2.2.1, h.2.2.2.2⟩

/-! ## C3: both fetches fail with an empty store -/

/-- C3 counterexample: with both fetches failing and zero events stored,
the run returns the secondary fetch error (not an error-free result) and
records a failure (the counter moves to 1, not a success reset): the code
never reaches the safety-floor check on this path. -/
theorem c3_counterexample :
    (run envBothFail0 defaultSourceState).1.fetched = 0 ∧
    (run envBothFail0 defaultSourceState).1.inserted = 0 ∧
    (run envBothFail0 defaultSourceState).1.updated = 0 ∧
    (run envBothFail0 defaultSourceState).1.error = some ("ical boom") ∧
    (run envBothFail0 defaultSourceState).1.error ≠ none ∧
    (run envBothFail0 defaultSourceState).2.1.consecutive_failures = 1 := by
  decide

/-- C3 amended: when both fetches fail, the run returns fetched = 0,
inserted = 0, updated = 0 with the secondary fetch error message and
records a failure, regardless of the stored count, which is never
queried (the safety floor applies only to successful empty fetches). -/
theorem c3_total_failure_amended (env : FetchEnv) (st : SourceState) (ea ei : String)
    (hks : st.kill_switch = false)
    (hapi : env.apiResult = .error ea) (hical : env.icalResult = .error ei) :
    (run env st).1 =
      { fetched := 0, inserted := 0, updated := 0, source := "none",
        error := some ei } ∧
    (run env st).2.1 = _record_failure env.now st ∧
    (run env st).2.2.countQueried = false ∧
    (run env st).2.2.upsertAttempted = false := by
  simp [run, hks, hapi, hical]

/-- C3 amended witness: the concrete both-fail environment records a
failure without consulting the store. -/
theorem c3_total_failure_amended_witness :
    (run envBothFail0 defaultSourceState).2.2.countQueried = false ∧
    (run envBothFail0 defaultSourceState).2.2.upsertAttempted = false := by
  have h := c3_total_failure_amended envBothFail0 defaultSourceState
    ("api boom") ("ical boom") rfl rfl rfl
  exact ⟨h.2.2.1, h.2.2.2⟩

/-! ## C1: failure counting and the kill switch -/

/-- C1: a blocked run (kill switch active) returns a zero-activity error
result, performs no fetch and no store access, and leaves the state
unchanged; a run whose fetch fails on both sources increments the
consecutive-failure counter by one and trips the kill switch exactly when
the counter reaches MAX_FAILURES = 3; from the healthy zero state three
total-failure runs drive the counter 0 to 1 to 2 to 3, activating the
switch on the third, and a fourth run is blocked. -/
theorem c1_kill_switch_progression :
    (∀ env st, st.kill_switch = true →
      (run env st).1.fetched = 0 ∧ (run env st).1.inserted = 0 ∧
      (run env st).1.updated = 0 ∧ (run env st).1.error ≠ none ∧
      (run env st).2.1 = st ∧
      (run env st).2.2 = ⟨false, false, false, false⟩) ∧
    (∀ env st ea ei, st.kill_switch = false →
      env.apiResult = .error ea → env.icalResult = .error ei →
      (run env st).2.1.consecutive_failures = st.consecutive_failures + 1 ∧
      (run env st).2.1.kill_switch = decide (3 ≤ st.consecutive_failures + 1)) ∧
    (∀ e1 e2 e3 e4 a1 i1 a2 i2 a3 i3,
      e1.apiResult = .error a1 → e1.icalResult = .error i1 →
      e2.apiResult = .error a2 → e2.icalResult = .error i2 →
      e3.apiResult = .error a3 → e3.icalResult = .error i3 →
      ((run e1 defaultSourceState).2.1.consecutive_failures = 1 ∧
       (run e1 defaultSourceState).2.1.kill_switch = false) ∧
      (((run e2 (run e1 defaultSourceState).2.1).2.1.consecutive_failures = 2 ∧
        (run e2 (run e1 defaultSourceState).2.1).2.1.kill_switch = false) ∧
       (((run e3 (run e2 (run e1 defaultSourceState).2.1).2.1).2.1.consecutive_failures = 3 ∧
         (run e3 (run e2 (run e1 defaultSourceState).2.1).2.1).2.1.kill_switch = true) ∧
        ((run e4 (run e3 (run e2 (run e1 defaultSourceState).2.1).2.1).2.1).1.fetched = 0 ∧
         (run e4 (run e3 (run e2 (run e1 defaultSourceState).2.1).2.1).2.1).1.error ≠ none ∧
         (run e4 (run e3 (run e2 (run e1 defaultSourceState).2.1).2.1).2.1).2.1 =
           (run e3 (run e2 (run e1 defaultSourceState).2.1).2.1).2.1 ∧
         (run e4 (run e3 (run e2 (run e1 defaultSourceState).2.1).2.1).2.1).2.2 =
           ⟨false, false, false, false⟩)))) := by
  have blocked : ∀ env st, st.kill_switch = true →
      (run env st).1.fetched = 0 ∧ (run env st).1.inserted = 0 ∧
      (run env st).1.updated = 0 ∧ (run env st).1.error ≠ none ∧
      (run env st).2.1 = st ∧
      (run env st).2.2 = ⟨false, false, false, false⟩ := by
    intro env st hks
    simp [run, hks]
  have failStep : ∀ env st ea ei, st.kill_switch = false →
      env.apiResult = .error ea → env.icalResult = .error ei →
      run env st =
        ({ fetched := 0, inserted := 0, updated := 0, source := "none",
           error := some ei },
         _record_failure env.now st,
         { apiAttempted := true, icalAttempted := true,
           countQueried := false, upsertAttempted := false }) := by
    intro env st ea ei hks hapi hical
    simp [run, hks, hapi, hical]
  have failCount : ∀ env st ea ei, st.kill_switch = false →
      env.apiResult = .error ea → env.icalResult = .error ei →
      (run env st).2.1.consecutive_failures = st.consecutive_failures + 1 ∧
      (run env st).2.1.kill_switch = decide (3 ≤ st.consecutive_failures + 1) := by
    intro env st ea ei hks hapi hical
    rw [failStep env st ea ei hks hapi hical]
    refine ⟨rfl, ?_⟩
    simp only [_record_failure, MAX_FAILURES]
    rw [hks]
    by_cases h3 : 3 ≤ st.consecutive_failures + 1
    · simp [h3]
    · simp [h3]
  refine ⟨blocked, failCount, ?_⟩
  intro e1 e2 e3 e4 a1 i1 a2 i2 a3 i3 h1a h1i h2a h2i h3a h3i
  have s1 := failStep e1 defaultSourceState a1 i1 rfl h1a h1i
  have st1cf : (run e1 defaultSourceState).2.1.consecutive_failures = 1 := by
    rw [s1]; rfl
  have st1ks : (run e1 defaultSourceState).2.1.kill_switch = false := by
    rw [s1]; rfl
  have s2 := failStep e2 _ a2 i2 st1ks h2a h2i
  have st2cf : (run e2 (run e1 defaultSourceState).2.1).2.1.consecutive_failures = 2 := by
    rw [s2]; simp [_record_failure, st1cf]
  have st2ks : (run e2 (run e1 defaultSourceState).2.1).2.1.kill_switch = false := by
    rw [s2]; simp [_record_failure, MAX_FAILURES, st1cf, st1ks]
  have s3 := failStep e3 _ a3 i3 st2ks h3a h3i
  have st3cf : (run e3 (run e2 (run e1 defaultSourceState).2.1).2.1).2.1.consecutive_failures = 3 := by
    rw [s3]; simp [_record_failure, st2cf]
  have st3ks : (run e3 (run e2 (run e1 defaultSourceState).2.1).2.1).2.1.kill_switch = true := by
    rw [s3]; simp [_record_failure, MAX_FAILURES, st2cf]
  exact ⟨⟨st1cf, st1ks⟩, ⟨st2cf, st2ks⟩, ⟨st3cf, st3ks⟩,
    (blocked e4 _ st3ks).1, (blocked e4 _ st3ks).2.2.2.1,
    (blocked e4 _ st3ks).2.2.2.2.1, (blocked e4 _ st3ks).2.2.2.2.2⟩

/-- C1 witness: three concrete total-failure runs activate the kill switch
and a fourth concrete run leaves the state unchanged with no effects. -/
theorem c1_kill_switch_progression_witness :
    ((run envBothFail0 (run envBothFail0 (run envBothFail0
        defaultSourceState).2.1).2.1).2.1.consecutive_failures = 3 ∧
      (run envBothFail0 (run envBothFail0 (run envBothFail0
        defaultSourceState).2.1).2.1).2.1.kill_switch = true) ∧
    ((run envBothFail0 (run envBothFail0 (run envBothFail0 (run envBothFail0
        defaultSourceState).2.1).2.1).2.1).2.1 =
      (run envBothFail0 (run envBothFail0 (run envBothFail0
        defaultSourceState).2.1).2.1).2.1 ∧
      (run envBothFail0 (run envBothFail0 (run envBothFail0 (run envBothFail0
        defaultSourceState).2.1).2.1).2.1).2.2 = ⟨false, false, false, false⟩) := by
  have h := c1_kill_switch_progression.2.2 envBothFail0 envBothFail0 envBothFail0
    envBothFail0 ("api boom") ("ical boom") ("api boom") ("ical boom")
    ("api boom") ("ical boom") rfl rfl rfl rfl rfl rfl
  exact ⟨h.2.2.1, h.2.2.2.2.2.1, h.2.2.2.2.2.2⟩

/-! ## C4: reported source tag after fallback -/

/-- C4 counterexample: in the spec scenario (primary raises HTTP 429,
secondary succeeds with the Zoom and Tillett events) the run succeeds with
fetched = 2, no error, campuses Online and Livingston, and the failure
counter reset - but the reported source string is "ical", not "feed" as
the claim states. -/
theorem c4_counterexample :
    (run envFallback defaultSourceState).1.fetched = 2 ∧
    (run envFallback defaultSourceState).1.error = none ∧
    (run envFallback defaultSourceState).2.1.consecutive_failures = 0 ∧
    scenarioIcalEvents.map Event.campus = ["Online", "Livingston"] ∧
    (run envFallback defaultSourceState).1.source = "ical" ∧
    (run envFallback defaultSourceState).1.source ≠ "feed" := by
  decide

/-- C4 amended: after the primary fetch raises and the secondary fetch
succeeds (non-empty, upsert succeeding), the result reports source "ical"
(the calendar feed), carries the fetched/inserted/updated counts with no
error, and the failure count is reset to 0; after a primary success it
reports "api". -/
theorem c4_source_tag_amended (env : FetchEnv) (st : SourceState)
    (events : List Event) (hks : st.kill_switch = false) :
    (∀ ea, env.apiResult = .error ea → env.icalResult = .ok events →
      events ≠ [] → env.upsertErr = none →
      (run env st).1.source = "ical" ∧
      (run env st).1.fetched = events.length ∧
      (run env st).1.inserted = (_upsert_events env.storedIds events).inserted ∧
      (run env st).1.updated = (_upsert_events env.storedIds events).updated ∧
      (run env st).1.error = none ∧
      (run env st).2.1 = _record_success env.now st ∧
      (run env st).2.1.consecutive_failures = 0) ∧
    (env.apiResult = .ok events → events ≠ [] → env.upsertErr = none →
      (run env st).1.source = "api" ∧
      (run env st).1.error = none ∧
      (run env st).2.1.consecutive_failures = 0) := by
  constructor
  · intro ea hapi hical hne hup
    have hlen : ¬ events.length = 0 := by
      simpa [List.length_eq_zero] using hne
    have hrun : run env st =
        ({ fetched := events.length,
           inserted := (_upsert_events env.storedIds events).inserted,
           updated := (_upsert_events env.storedIds events).updated,
           source := "ical", error := none },
         _record_success env.now st,
         { apiAttempted := true, icalAttempted := true,
           countQueried := false, upsertAttempted := true }) := by
      simp [run, hks, hapi, hical, runAfterFetch, hlen, hup]
    rw [hrun]
    exact ⟨rfl, rfl, rfl, rfl, rfl, rfl, rfl⟩
  · intro hapi hne hup
    have hlen : ¬ events.length = 0 := by
      simpa [List.length_eq_zero] using hne
    have hrun : run env st =
        ({ fetched := events.length,
           inserted := (_upsert_events env.storedIds events).inserted,
           updated := (_upsert_events env.storedIds events).updated,
           source := "api", error := none },
         _record_success env.now st,
         { apiAttempted := true, icalAttempted := false,
           countQueried := false, upsertAttempted := true }) := by
      simp [run, hks, hapi, runAfterFetch, hlen, hup]
    rw [hrun]
    exact ⟨rfl, rfl, rfl⟩

/-- C4 amended witness: the concrete fallback scenario reports "ical" with
no error and a reset failure counter. -/
theorem c4_source_tag_amended_witness :
    (run envFallback defaultSourceState).1.source = "ical" ∧
    (run envFallback defaultSourceState).1.error = none ∧
    (run envFallback defaultSourceState).2.1.consecutive_failures = 0 := by
  have h := (c4_source_tag_amended envFallback defaultSourceState
    scenarioIcalEvents rfl).1 ("429 Client Error") rfl rfl (by decide) rfl
  exact ⟨h.1, h.2.2.2.2.1, h.2.2.2.2.2.2⟩

/-! ## C6: deduplication and upsert accounting -/

lemma dedupeGo_sublist (l : List Event) :
    ∀ seen : List String, (dedupeGo seen l).Sublist l := by
  induction l with
  | nil => intro seen; simp [dedupeGo]
  | cons e rest ih =>
    intro seen
    by_cases h : seen.contains e.event_id = true
    · simp only [dedupeGo, h, if_pos]
      exact (ih seen).trans (List.sublist_cons_self e rest)
    · simp only [dedupeGo, h, if_neg, not_false_eq_true]
      exact (ih (e.event_id :: seen)).cons₂ e

lemma dedupeGo_keys (l : List Event) :
    ∀ seen : List String,
      ((dedupeGo seen l).map Event.event_id).Nodup ∧
      ∀ k ∈ (dedupeGo seen l).map Event.event_id, k ∉ seen := by
  induction l with
  | nil => intro seen; simp [dedupeGo]
  | cons e rest ih =>
    intro seen
    by_cases h : seen.contains e.event_id = true
    · simp only [dedupeGo, h, if_pos]
      exact ih seen
    · simp only [dedupeGo, h, if_neg, not_false_eq_true, List.map_cons]
      have hrec := ih (e.event_id :: seen)
      constructor
      · refine List.nodup_cons.mpr ⟨?_, hrec.1⟩
        intro hmem
        exact (hrec.2 e.event_id hmem) (List.mem_cons_self _ _)
      · intro k hk
        rcases List.mem_cons.mp hk with hk | hk
        · subst hk
          intro hks
          exact h (by simpa using hks)
        · intro hks
          exact (hrec.2 k hk) (List.mem_cons_of_mem _ hks)

lemma dedupeGo_filter (l : List Event) :
    ∀ (seen : List String) (k : String),
      (dedupeGo seen l).filter (fun e => e.event_id == k) =
        if k ∈ seen then [] else (l.filter (fun e => e.event_id == k)).take 1 := by
  induction l with
  | nil =>
    intro seen k
    by_cases h : k ∈ seen <;> simp [dedupeGo, h]
  | cons e rest ih =>
    intro seen k
    by_cases hc : seen.contains e.event_id = true
    · have hmem : e.event_id ∈ seen := by simpa using hc
      have hstep : dedupeGo seen (e :: rest) = dedupeGo seen rest := by
        simp only [dedupeGo]
        rw [if_pos hc]
      rw [hstep, ih seen k]
      by_cases hk : k ∈ seen
      · simp [hk]
      · have hne : (e.event_id == k) = false := by
          simp only [beq_eq_false_iff_ne, ne_eq]
          intro he
          exact hk (he ▸ hmem)
        rw [if_neg hk, if_neg hk, List.filter_cons, hne]
        simp
    · have hmem : e.event_id ∉ seen := by
        intro hm
        exact hc (by simpa using hm)
      have hstep : dedupeGo seen (e :: rest) = e :: dedupeGo (e.event_id :: seen) rest := by
        simp only [dedupeGo]
        rw [if_neg hc]
      rw [hstep, List.filter_cons, List.filter_cons]
      by_cases hek : e.event_id = k
      · subst hek
        have hpos : (e.event_id == e.event_id) = true := by simp
        rw [hpos, ih (e.event_id :: seen) e.event_id]
        simp [hmem]
      · have hne : (e.event_id == k) = false := by
          simpa using hek
        rw [hne, ih (e.event_id :: seen) k]
        have hiff : (k ∈ e.event_id :: seen) ↔ k ∈ seen := by
          simp only [List.mem_cons]
          constructor
          · rintro (h | h)
            · exact absurd h.symm hek
            · exact h
          · exact Or.inr
        simp only [if_neg (by simp : ¬ false = true)]
        rw [if_congr hiff rfl rfl]

/-- C6: the reconciler deduplicates by event_id keeping the first
occurrence in order (the upserted batch is a subsequence of the input
whose ids are pairwise distinct and whose entries with a given id are
exactly the first input entry with that id), every input id is
represented, the reported inserted + updated total equals the length of
the deduplicated batch, and an empty input returns (0, 0) without
contacting the store. -/
theorem c6_upsert_dedup (storedIds : List String) (events : List Event) :
    (_upsert_events storedIds []).inserted = 0 ∧
    (_upsert_events storedIds []).updated = 0 ∧
    (_upsert_events storedIds []).contactedStore = false ∧
    ((_upsert_events storedIds events).batch.map Event.event_id).Nodup ∧
    ((_upsert_events storedIds events).batch).Sublist events ∧
    (∀ e ∈ events,
      e.event_id ∈ (_upsert_events storedIds events).batch.map Event.event_id) ∧
    (∀ k, (_upsert_events storedIds events).batch.filter (fun e => e.event_id == k) =
      (events.filter (fun e => e.event_id == k)).take 1) ∧
    (_upsert_events storedIds events).inserted + (_upsert_events storedIds events).updated =
      ((_upsert_events storedIds events).batch).length := by
  refine ⟨rfl, rfl, rfl, ?_, ?_, ?_, ?_, ?_⟩
  all_goals by_cases hemp : events.isEmpty = true
  · have : events = [] := by simpa [List.isEmpty_iff] using hemp
    subst this; simp [_upsert_events]
  · simp only [_upsert_events, hemp, if_neg, not_false_eq_true, Bool.false_eq_true]
    exact (dedupeGo_keys events []).1
  · have : events = [] := by simpa [List.isEmpty_iff] using hemp
    subst this; simp [_upsert_events]
  · simp only [_upsert_events, hemp, if_neg, not_false_eq_true, Bool.false_eq_true]
    exact dedupeGo_sublist events []
  · have : events = [] := by simpa [List.isEmpty_iff] using hemp
    subst this; simp [_upsert_events]
  · simp only [_upsert_events, hemp, if_neg, not_false_eq_true, Bool.false_eq_true]
    intro e he
    have hfil : e ∈ events.filter (fun x => x.event_id == e.event_id) :=
      List.mem_filter.mpr ⟨he, by simp⟩
    have hfe : events.filter (fun x => x.event_id == e.event_id) ≠ [] :=
      List.ne_nil_of_mem hfil
    obtain ⟨x0, t0, hxt⟩ := List.exists_cons_of_ne_nil hfe
    have htake : (events.filter (fun x => x.event_id == e.event_id)).take 1 ≠ [] := by
      rw [hxt]; simp
    have hbatch := dedupeGo_filter events [] e.event_id
    simp only [List.not_mem_nil, if_false, if_neg] at hbatch
    rw [← hbatch] at htake
    rcases List.exists_mem_of_ne_nil _ htake with ⟨x, hx⟩
    have hx2 := List.mem_filter.mp hx
    have : x.event_id = e.event_id := by simpa using hx2.2
    exact this ▸ List.mem_map_of_mem Event.event_id hx2.1
  · have : events = [] := by simpa [List.isEmpty_iff] using hemp
    subst this; simp [_upsert_events]
  · simp only [_upsert_events, hemp, if_neg, not_false_eq_true, Bool.false_eq_true]
    intro k
    have h := dedupeGo_filter events [] k
    simpa using h
  · have : events = [] := by simpa [List.isEmpty_iff] using hemp
    subst this; simp [_upsert_events]
  · simp only [_upsert_events, hemp, if_neg, not_false_eq_true, Bool.false_eq_true]
    have hle := List.length_filter_le
      (fun e => decide ¬ (((dedupeGo [] events).map Event.event_id).filter
        (fun i => storedIds.contains i)).contains e.event_id = true)
      (dedupeGo [] events)
    omega

/-- C6 witness: three input events with two distinct ids upsert a batch of
two; the duplicated id is represented and inserted + updated = 2, not the
raw input length 3. -/
theorem c6_upsert_dedup_witness :
    evA2.event_id ∈ ((_upsert_events ["idB"] [evA1, evB, evA2]).batch.map Event.event_id) ∧
    (_upsert_events ["idB"] [evA1, evB, evA2]).inserted +
      (_upsert_events ["idB"] [evA1, evB, evA2]).updated = 2 :=
  ⟨(c6_upsert_dedup ["idB"] [evA1, evB, evA2]).2.2.2.2.2.1 evA2 (by decide),
   by decide⟩

/-! ## C7: normalizer rejection rules -/

/-- C7: both normalizers drop a raw record whose title is empty or absent
and one whose start time is absent (or, on the API path, fails to parse);
a record with a non-empty title and a usable start time is normalized even
though its end time is absent. -/
theorem c7_normalizer_rejections :
    (∀ parse now raw, pyStrip ((raw : ApiRaw).name.getD ("")) = "" →
      _normalize_api_event parse now raw = none) ∧
    (∀ parse now raw, (raw : ApiRaw).startsOn = none →
      _normalize_api_event parse now raw = none) ∧
    (∀ parse now raw s, (raw : ApiRaw).startsOn = some s → parse s = none →
      _normalize_api_event parse now raw = none) ∧
    (∀ parse now raw s t, pyStrip ((raw : ApiRaw).name.getD ("")) ≠ "" →
      raw.startsOn = some s → parse s = some t → raw.endsOn = none →
      ∃ ev, _normalize_api_event parse now raw = some ev ∧
        ev.title = pyStrip (raw.name.getD ("")) ∧ ev.end_time = none) ∧
    (∀ parse now c, pyStrip ((c : IcalComponent).summary.getD ("")) = "" →
      _normalize_ical_event parse now c = none) ∧
    (∀ parse now c, (c : IcalComponent).dtstart = none →
      _normalize_ical_event parse now c = none) ∧
    (∀ parse now c t, pyStrip ((c : IcalComponent).summary.getD ("")) ≠ "" →
      c.dtstart = some t → c.dtend = none →
      ∃ ev, _normalize_ical_event parse now c = some ev ∧
        ev.title = pyStrip (c.summary.getD ("")) ∧ ev.end_time = none) := by
  refine ⟨?_, ?_, ?_, ?_, ?_, ?_, ?_⟩
  · intro parse now raw h
    simp [_normalize_api_event, h]
  · intro parse now raw h
    by_cases ht : pyStrip (raw.name.getD ("")) = ""
    · simp [_normalize_api_event, ht]
    · simp [_normalize_api_event, ht, h, _to_utc_iso]
  · intro parse now raw s hs hp
    by_cases ht : pyStrip (raw.name.getD ("")) = ""
    · simp [_normalize_api_event, ht]
    · simp [_normalize_api_event, ht, hs, hp, _to_utc_iso]
  · intro parse now raw s t hti hs hp hend
    have h1 : _to_utc_iso parse ((raw.startsOn).map DtValue.str) = some (renderUtcIso t) := by
      rw [hs]
      simp [_to_utc_iso, hp]
    cases hnorm : _normalize_api_event parse now raw with
    | none =>
      simp [_normalize_api_event, hti, h1] at hnorm
    | some ev =>
      refine ⟨ev, rfl, ?_, ?_⟩
      · simp only [_normalize_api_event, hti, if_neg, not_false_eq_true, h1,
          Option.some.injEq] at hnorm
        rw [← hnorm]
      · simp only [_normalize_api_event, hti, if_neg, not_false_eq_true, h1,
          Option.some.injEq] at hnorm
        rw [← hnorm]
        simp [hend, _to_utc_iso]
  · intro parse now c h
    simp [_normalize_ical_event, h]
  · intro parse now c h
    by_cases ht : pyStrip (c.summary.getD ("")) = ""
    · simp [_normalize_ical_event, ht]
    · simp [_normalize_ical_event, ht, h, _to_utc_iso]
  · intro parse now c t hti hstart hend
    have h1 : _to_utc_iso parse ((c.dtstart).map DtValue.time) = some (renderUtcIso t) := by
      rw [hstart]
      simp [_to_utc_iso]
    cases hnorm : _normalize_ical_event parse now c with
    | none =>
      simp [_normalize_ical_event, hti, h1] at hnorm
    | some ev =>
      refine ⟨ev, rfl, ?_, ?_⟩
      · simp only [_normalize_ical_event, hti, if_neg, not_false_eq_true, h1,
          Option.some.injEq] at hnorm
        rw [← hnorm]
      · simp only [_normalize_ical_event, hti, if_neg, not_false_eq_true, h1,
          Option.some.injEq] at hnorm
        rw [← hnorm]
        simp [hend, _to_utc_iso]

/-- C7 witness: a blank-titled record and an unparseable-start record are
dropped, while a record whose end time is missing is normalized. -/
theorem c7_normalizer_rejections_witness :
    _normalize_api_event oneParse ("t0") rawNoTitle = none ∧
    _normalize_api_event oneParse ("t0") rawBadStart = none ∧
    ∃ ev, _normalize_api_event oneParse ("t0") rawGood = some ev ∧
      ev.title = pyStrip (rawGood.name.getD ("")) ∧ ev.end_time = none :=
  ⟨c7_normalizer_rejections.1 oneParse ("t0") rawNoTitle (by decide),
   (c7_normalizer_rejections.2.2.1) oneParse ("t0") rawBadStart ("not a date") rfl
     (by decide),
   (c7_normalizer_rejections.2.2.2.1) oneParse ("t0") rawGood
     ("2025-11-01T18:00:00") (.datetime 2025 11 1 18 0 0 none) (by decide) rfl
     (by decide) rfl⟩

/-! ## C9: deterministic truncated digest identity -/

lemma length_bytesOfWord (w : Nat) : (bytesOfWord w).length = 4 := rfl

lemma length_sha256Bytes (msg : List Nat) : (sha256Bytes msg).length = 32 := by
  simp [sha256Bytes, length_bytesOfWord]

lemma length_hexOfBytes (l : List Nat) : (hexOfBytes l).length = 2 * l.length := by
  induction l with
  | nil => rfl
  | cons b rest ih =>
    simp only [hexOfBytes, List.length_append, ih, List.length_cons]
    rw [show (byteToHex b).length = 2 from rfl]
    omega

lemma hexDigitChar_mem (n : Nat) : hexDigitChar n ∈ ("0123456789abcdef").data := by
  rcases Nat.lt_or_ge n 16 with h | h
  · interval_cases n <;> decide
  · have hlen : (("0123456789abcdef").data).length ≤ n := by
      simpa using h
    unfold hexDigitChar
    rw [List.getD_eq_default _ _ hlen]
    decide

lemma mem_hexOfBytes (c : Char) (l : List Nat) (h : c ∈ hexOfBytes l) :
    c ∈ ("0123456789abcdef").data := by
  induction l with
  | nil => simp [hexOfBytes] at h
  | cons b rest ih =>
    simp only [hexOfBytes, byteToHex, List.cons_append, List.nil_append,
      List.mem_cons] at h
    rcases h with h | h | h
    · exact h ▸ hexDigitChar_mem _
    · exact h ▸ hexDigitChar_mem _
    · exact ih h

/-- C9: the identity assigner is a pure deterministic function of exactly
(title, start_time, source): equal inputs give equal identifiers; the
identifier is the 32-character prefix of the full 64-character lower-case
hex SHA-256 digest of the three fields joined with the pipe delimiter, and
every character of it is a hex digit. -/
theorem c9_event_id (t1 s1 src1 t2 s2 src2 : String)
    (ht : t1 = t2) (hs : s1 = s2) (hsrc : src1 = src2) :
    make_event_id t1 s1 src1 = make_event_id t2 s2 src2 ∧
    (make_event_id t1 s1 src1).data =
      (sha256HexDigest (t1 ++ "|" ++ s1 ++ "|" ++ src1)).take 32 ∧
    (sha256HexDigest (t1 ++ "|" ++ s1 ++ "|" ++ src1)).length = 64 ∧
    (make_event_id t1 s1 src1).length = 32 ∧
    ∀ c ∈ (make_event_id t1 s1 src1).data, c ∈ ("0123456789abcdef").data := by
  subst ht hs hsrc
  have hlen : (sha256HexDigest (t1 ++ "|" ++ s1 ++ "|" ++ src1)).length = 64 := by
    unfold sha256HexDigest
    rw [length_hexOfBytes, length_sha256Bytes]
  refine ⟨rfl, rfl, hlen, ?_, ?_⟩
  · show ((sha256HexDigest (t1 ++ "|" ++ s1 ++ "|" ++ src1)).take 32).length = 32
    rw [List.length_take, hlen]
    decide
  · intro c hc
    have : c ∈ sha256HexDigest (t1 ++ "|" ++ s1 ++ "|" ++ src1) :=
      List.take_subset 32 _ hc
    exact mem_hexOfBytes c _ this

/-- C9 witness: determinism and the digest-prefix facts at one concrete
triple of fields. -/
theorem c9_event_id_witness :
    make_event_id ("Chess Night") ("2025-11-01T18:00:00+00:00") SOURCE =
      make_event_id ("Chess Night") ("2025-11-01T18:00:00+00:00") SOURCE ∧
    (make_event_id ("Chess Night") ("2025-11-01T18:00:00+00:00") SOURCE).length = 32 := by
  have h := c9_event_id ("Chess Night") ("2025-11-01T18:00:00+00:00") SOURCE
    ("Chess Night") ("2025-11-01T18:00:00+00:00") SOURCE rfl rfl rfl
  exact ⟨h.1, h.2.2.2.1⟩

/-! ## C8: sanitizer properties -/

lemma startsTag_cons_of_ne (c : Char) (l : List Char) (h : c ≠ '<') :
    startsTag (c :: l) = false := by
  cases l with
  | nil => rfl
  | cons d rest => simp [startsTag, h]

lemma startsTag_cons_of_not_gt (c : Char) (l : List Char) (h : '>' ∉ l) :
    startsTag (c :: l) = false := by
  cases l with
  | nil => rfl
  | cons d rest =>
    have hc : (d :: rest).contains '>' = false := by simpa using h
    simp only [startsTag, hc, Bool.and_false]

lemma gt_mem_of_hasTagB (l : List Char) (h : hasTagB l = true) : '>' ∈ l := by
  induction l with
  | nil => simp [hasTagB] at h
  | cons c rest ih =>
    rw [hasTagB, Bool.or_eq_true] at h
    rcases h with h1 | h2
    · cases rest with
      | nil => simp [startsTag] at h1
      | cons d r2 =>
        simp only [startsTag, Bool.and_eq_true, decide_eq_true_eq] at h1
        have : '>' ∈ d :: r2 := by simpa using h1.2
        exact List.mem_cons_of_mem c this
    · exact List.mem_cons_of_mem c (ih h2)

lemma hasTagB_eq_false_of_not_gt (l : List Char) (h : '>' ∉ l) :
    hasTagB l = false := by
  cases htag : hasTagB l with
  | false => rfl
  | true => exact absurd (gt_mem_of_hasTagB l htag) h

lemma stripGo_noTag (l : List Char) : ∀ buf : List Char, '>' ∉ buf →
    hasTagB (stripGo (some buf) l) = false ∧ hasTagB (stripGo none l) = false := by
  induction l with
  | nil =>
    intro buf hbuf
    constructor
    · show hasTagB ('<' :: buf.reverse) = false
      apply hasTagB_eq_false_of_not_gt
      simp only [List.mem_cons, List.mem_reverse]
      rintro (h | h)
      · exact absurd h (by decide)
      · exact hbuf h
    · rfl
  | cons c rest ih =>
    intro buf hbuf
    have htail : hasTagB (stripGo none rest) = false := (ih buf hbuf).2
    constructor
    · by_cases hc : c = '>'
      · subst hc
        by_cases hb : buf.isEmpty = true
        · have hred : stripGo (some buf) ('>' :: rest) =
              '<' :: '>' :: stripGo none rest := by
            simp [stripGo, hb]
          rw [hred, hasTagB, hasTagB]
          have h1 : startsTag ('<' :: '>' :: stripGo none rest) = false := by
            simp [startsTag]
          have h2 : startsTag ('>' :: stripGo none rest) = false :=
            startsTag_cons_of_ne _ _ (by decide)
          simp [h1, h2, htail]
        · have hred : stripGo (some buf) ('>' :: rest) = ' ' :: stripGo none rest := by
            simp [stripGo, hb]
          rw [hred, hasTagB]
          have h1 : startsTag (' ' :: stripGo none rest) = false :=
            startsTag_cons_of_ne _ _ (by decide)
          simp [h1, htail]
      · have hred : stripGo (some buf) (c :: rest) = stripGo (some (c :: buf)) rest := by
          simp [stripGo, hc]
        rw [hred]
        refine (ih (c :: buf) ?_).1
        simp only [List.mem_cons]
        rintro (h | h)
        · exact hc h.symm
        · exact hbuf h
    · by_cases hc : c = '<'
      · have hred : stripGo none (c :: rest) = stripGo (some []) rest := by
          simp [stripGo, hc]
        rw [hred]
        exact (ih [] (by simp)).1
      · have hred : stripGo none (c :: rest) = c :: stripGo none rest := by
          simp [stripGo, hc]
        rw [hred, hasTagB]
        simp [startsTag_cons_of_ne c _ hc, htail]

lemma mem_collapseGo (l : List Char) : ∀ (b : Bool) (x : Char),
    x ∈ collapseGo b l → x ∈ l ∨ x = ' ' := by
  induction l with
  | nil =>
    intro b x h
    simp [collapseGo] at h
  | cons c rest ih =>
    intro b x h
    by_cases hws : isPySpace c = true
    · cases b with
      | true =>
        have h2 : x ∈ collapseGo true rest := by simpa [collapseGo, hws] using h
        rcases ih true x h2 with h3 | h3
        · exact Or.inl (List.mem_cons_of_mem c h3)
        · exact Or.inr h3
      | false =>
        have h2 : x ∈ ' ' :: collapseGo true rest := by simpa [collapseGo, hws] using h
        rcases List.mem_cons.mp h2 with h3 | h3
        · exact Or.inr h3
        · rcases ih true x h3 with h4 | h4
          · exact Or.inl (List.mem_cons_of_mem c h4)
          · exact Or.inr h4
    · have h2 : x ∈ c :: collapseGo false rest := by simpa [collapseGo, hws] using h
      rcases List.mem_cons.mp h2 with h3 | h3
      · exact Or.inl (h3 ▸ List.mem_cons_self c rest)
      · rcases ih false x h3 with h4 | h4
        · exact Or.inl (List.mem_cons_of_mem c h4)
        · exact Or.inr h4

lemma collapseGo_noTag (l : List Char) : ∀ b : Bool, hasTagB l = false →
    hasTagB (collapseGo b l) = false := by
  induction l with
  | nil => intro b _; cases b <;> rfl
  | cons c rest ih =>
    intro b h
    obtain ⟨hst, hrest⟩ : startsTag (c :: rest) = false ∧ hasTagB rest = false := by
      rw [hasTagB] at h
      simpa using h
    by_cases hws : isPySpace c = true
    · cases b with
      | true =>
        have hred : collapseGo true (c :: rest) = collapseGo true rest := by
          simp [collapseGo, hws]
        rw [hred]
        exact ih true hrest
      | false =>
        have hred : collapseGo false (c :: rest) = ' ' :: collapseGo true rest := by
          simp [collapseGo, hws]
        rw [hred, hasTagB]
        simp [startsTag_cons_of_ne _ _ (by decide : (' ' : Char) ≠ '<'), ih true hrest]
    · have hred : collapseGo b (c :: rest) = c :: collapseGo false rest := by
        simp [collapseGo, hws]
      rw [hred, hasTagB]
      have htail := ih false hrest
      by_cases hc : c = '<'
      · subst hc
        have hst2 : startsTag ('<' :: collapseGo false rest) = false := by
          cases rest with
          | nil => rfl
          | cons d r2 =>
            by_cases hd : d = '>'
            · subst hd
              have hred2 : collapseGo false ('>' :: r2) = '>' :: collapseGo false r2 := by
                simp only [collapseGo]
                rw [if_neg (by decide : ¬ isPySpace '>' = true)]
              rw [hred2]
              simp [startsTag]
            · have hbne : (d != '>') = true := by simpa using hd
              simp [startsTag, hbne] at hst
              have hnogt : '>' ∉ d :: r2 := by
                intro hmem
                rcases List.mem_cons.mp hmem with h5 | h5
                · exact hst.1 h5
                · exact hst.2 h5
              have hnogt2 : '>' ∉ collapseGo false (d :: r2) := by
                intro hmem
                rcases mem_collapseGo (d :: r2) false '>' hmem with h4 | h4
                · exact hnogt h4
                · exact absurd h4 (by decide)
              exact startsTag_cons_of_not_gt _ _ hnogt2
        simp [hst2, htail]
      · simp [startsTag_cons_of_ne _ _ hc, htail]

lemma allWsSingle_collapseGo (l : List Char) : ∀ b : Bool,
    allWsSingle (collapseGo b l) = true := by
  induction l with
  | nil => intro b; rfl
  | cons c rest ih =>
    intro b
    by_cases hws : isPySpace c = true
    · cases b with
      | true =>
        have hred : collapseGo true (c :: rest) = collapseGo true rest := by
          simp [collapseGo, hws]
        rw [hred]
        exact ih true
      | false =>
        have hred : collapseGo false (c :: rest) = ' ' :: collapseGo true rest := by
          simp [collapseGo, hws]
        rw [hred]
        have h2 := ih true
        simp only [allWsSingle, List.all_cons] at h2 ⊢
        rw [h2, Bool.and_true]
        decide
    · have hred : collapseGo b (c :: rest) = c :: collapseGo false rest := by
        simp [collapseGo, hws]
      rw [hred]
      have h2 := ih false
      simp only [allWsSingle, List.all_cons] at h2 ⊢
      rw [h2, Bool.and_true]
      simp [hws]

lemma collapseGo_true_head (l : List Char) :
    ∀ c : Char, (collapseGo true l).head? = some c → isPySpace c = false := by
  induction l with
  | nil =>
    intro c h
    simp [collapseGo] at h
  | cons a rest ih =>
    intro c h
    by_cases hws : isPySpace a = true
    · have hred : collapseGo true (a :: rest) = collapseGo true rest := by
        simp [collapseGo, hws]
      rw [hred] at h
      exact ih c h
    · have hred : collapseGo true (a :: rest) = a :: collapseGo false rest := by
        simp [collapseGo, hws]
      rw [hred] at h
      have : a = c := by simpa using h
      subst this
      simpa using hws

lemma noDoubleSpace_cons (c : Char) (l : List Char) :
    noDoubleSpace (c :: l) = true ↔
      ((∀ d, l.head? = some d → ¬(c = ' ' ∧ d = ' ')) ∧ noDoubleSpace l = true) := by
  cases l with
  | nil => simp [noDoubleSpace]
  | cons d rest =>
    simp only [noDoubleSpace, Bool.and_eq_true, Bool.not_eq_true']
    constructor
    · rintro ⟨h1, h2⟩
      refine ⟨?_, h2⟩
      intro d2 hd2 hcd
      have : d2 = d := by simpa using hd2.symm
      subst this
      simp [hcd.1, hcd.2] at h1
    · rintro ⟨h1, h2⟩
      refine ⟨?_, h2⟩
      by_cases hc : c = ' '
      · by_cases hd : d = ' '
        · exact absurd ⟨hc, hd⟩ (h1 d rfl)
        · simp [hd]
      · simp [hc]

lemma noDoubleSpace_collapseGo (l : List Char) : ∀ b : Bool,
    noDoubleSpace (collapseGo b l) = true := by
  induction l with
  | nil => intro b; rfl
  | cons c rest ih =>
    intro b
    by_cases hws : isPySpace c = true
    · cases b with
      | true =>
        have hred : collapseGo true (c :: rest) = collapseGo true rest := by
          simp [collapseGo, hws]
        rw [hred]
        exact ih true
      | false =>
        have hred : collapseGo false (c :: rest) = ' ' :: collapseGo true rest := by
          simp [collapseGo, hws]
        rw [hred, noDoubleSpace_cons]
        refine ⟨?_, ih true⟩
        intro d hd hcd
        have : isPySpace d = false := collapseGo_true_head rest d hd
        rw [hcd.2] at this
        exact absurd this (by decide)
    · have hred : collapseGo b (c :: rest) = c :: collapseGo false rest := by
        simp [collapseGo, hws]
      rw [hred, noDoubleSpace_cons]
      refine ⟨?_, ih false⟩
      intro d hd hcd
      rw [hcd.1] at hws
      exact hws (by decide)

lemma noDoubleSpace_tail (c : Char) (l : List Char)
    (h : noDoubleSpace (c :: l) = true) : noDoubleSpace l = true :=
  ((noDoubleSpace_cons c l).mp h).2

lemma noDoubleSpace_append_left (l1 l2 : List Char)
    (h : noDoubleSpace (l1 ++ l2) = true) : noDoubleSpace l1 = true := by
  induction l1 with
  | nil => rfl
  | cons c p ih =>
    rw [List.cons_append, noDoubleSpace_cons] at h
    rw [noDoubleSpace_cons]
    refine ⟨?_, ih h.2⟩
    intro d hd hcd
    refine h.1 d ?_ hcd
    cases p with
    | nil => simp at hd
    | cons e p2 =>
      simpa using hd

lemma noDoubleSpace_dropWhile (p : Char → Bool) (l : List Char)
    (h : noDoubleSpace l = true) : noDoubleSpace (l.dropWhile p) = true := by
  induction l with
  | nil => rfl
  | cons c rest ih =>
    rw [List.dropWhile_cons]
    by_cases hp : p c = true
    · rw [if_pos hp]
      exact ih (noDoubleSpace_tail c rest h)
    · rw [if_neg hp]
      exact h

lemma hasTagB_append_left (l1 l2 : List Char) (h : hasTagB l1 = true) :
    hasTagB (l1 ++ l2) = true := by
  induction l1 with
  | nil => simp [hasTagB] at h
  | cons c p ih =>
    rw [hasTagB, Bool.or_eq_true] at h
    rw [List.cons_append, hasTagB, Bool.or_eq_true]
    rcases h with h1 | h2
    · left
      cases p with
      | nil => simp [startsTag] at h1
      | cons d p2 =>
        rw [List.cons_append]
        simp only [startsTag, Bool.and_eq_true] at h1
        obtain ⟨⟨hc, hd⟩, hcont⟩ := h1
        have hmem : '>' ∈ d :: p2 := by simpa using hcont
        have hmem2 : ('>' : Char) ∈ d :: (p2 ++ l2) := by
          rcases List.mem_cons.mp hmem with h5 | h5
          · rw [h5]; exact List.mem_cons_self _ _
          · exact List.mem_cons_of_mem d (List.mem_append_left l2 h5)
        have hcont2 : (d :: (p2 ++ l2)).contains '>' = true := by simpa using hmem2
        simp only [startsTag, Bool.and_eq_true]
        exact ⟨⟨hc, hd⟩, hcont2⟩
    · right
      exact ih h2

lemma hasTagB_front_mono (r m : List Char) (hpre : r <+: m)
    (h : hasTagB m = false) : hasTagB r = false := by
  obtain ⟨t, rfl⟩ := hpre
  cases htag : hasTagB r with
  | false => rfl
  | true => rw [hasTagB_append_left r t htag] at h; exact absurd h (by decide)

lemma hasTagB_dropWhile (p : Char → Bool) (l : List Char)
    (h : hasTagB l = false) : hasTagB (l.dropWhile p) = false := by
  induction l with
  | nil => rfl
  | cons c rest ih =>
    obtain ⟨hst, hrest⟩ : startsTag (c :: rest) = false ∧ hasTagB rest = false := by
      rw [hasTagB] at h
      simpa using h
    rw [List.dropWhile_cons]
    by_cases hp : p c = true
    · rw [if_pos hp]
      exact ih hrest
    · rw [if_neg hp]
      exact h

lemma head?_dropWhile (p : Char → Bool) (l : List Char) (c : Char)
    (h : (l.dropWhile p).head? = some c) : p c = false := by
  induction l with
  | nil => simp at h
  | cons a rest ih =>
    rw [List.dropWhile_cons] at h
    by_cases hp : p a = true
    · rw [if_pos hp] at h
      exact ih h
    · rw [if_neg hp] at h
      have : a = c := by simpa using h
      subst this
      simpa using hp

lemma trimWs_front (l : List Char) : trimWs l <+: dropLeadingWs l := by
  apply List.reverse_suffix.mp
  show (trimWs l).reverse <:+ (dropLeadingWs l).reverse
  unfold trimWs
  rw [List.reverse_reverse]
  exact List.dropWhile_suffix isPySpace

lemma trimWs_subset (l : List Char) : ∀ x ∈ trimWs l, x ∈ l := by
  intro x hx
  have h1 : x ∈ dropLeadingWs l := (trimWs_front l).subset hx
  exact (List.dropWhile_suffix isPySpace).subset h1

lemma cleanChars_noTag (l : List Char) : hasTagB (cleanChars l) = false := by
  have h1 : hasTagB (stripTags l) = false := (stripGo_noTag l [] (by simp)).2
  have h2 : hasTagB (collapseWs (stripTags l)) = false :=
    collapseGo_noTag (stripTags l) false h1
  have h3 : hasTagB (dropLeadingWs (collapseWs (stripTags l))) = false :=
    hasTagB_dropWhile isPySpace _ h2
  exact hasTagB_front_mono _ _ (trimWs_front (collapseWs (stripTags l))) h3

lemma cleanChars_allWs (l : List Char) : allWsSingle (cleanChars l) = true := by
  have h2 : allWsSingle (collapseWs (stripTags l)) = true :=
    allWsSingle_collapseGo (stripTags l) false
  rw [allWsSingle, List.all_eq_true] at h2 ⊢
  intro x hx
  exact h2 x (trimWs_subset _ x hx)

lemma noDoubleSpace_front_mono (r m : List Char) (hpre : r <+: m)
    (h : noDoubleSpace m = true) : noDoubleSpace r = true := by
  obtain ⟨t, rfl⟩ := hpre
  exact noDoubleSpace_append_left r t h

lemma cleanChars_noDouble (l : List Char) : noDoubleSpace (cleanChars l) = true := by
  have h2 : noDoubleSpace (collapseWs (stripTags l)) = true :=
    noDoubleSpace_collapseGo (stripTags l) false
  have h3 : noDoubleSpace (dropLeadingWs (collapseWs (stripTags l))) = true :=
    noDoubleSpace_dropWhile isPySpace _ h2
  exact noDoubleSpace_front_mono _ _ (trimWs_front (collapseWs (stripTags l))) h3

lemma cleanChars_head (l : List Char) (c : Char)
    (h : (cleanChars l).head? = some c) : isPySpace c = false := by
  have hpre := trimWs_front (collapseWs (stripTags l))
  obtain ⟨t, ht⟩ := hpre
  cases hr : cleanChars l with
  | nil => rw [hr] at h; simp at h
  | cons c0 r0 =>
    rw [hr] at h
    have hc0 : c0 = c := by simpa using h
    subst hc0
    have hm1 : dropLeadingWs (collapseWs (stripTags l)) = c0 :: (r0 ++ t) := by
      rw [← ht]
      rw [show trimWs (collapseWs (stripTags l)) = cleanChars l from rfl, hr]
      rfl
    have : (dropLeadingWs (collapseWs (stripTags l))).head? = some c0 := by
      rw [hm1]; rfl
    exact head?_dropWhile isPySpace _ c0 this

lemma cleanChars_last (l : List Char) (c : Char)
    (h : (cleanChars l).getLast? = some c) : isPySpace c = false := by
  have hrev : (cleanChars l).reverse =
      (dropLeadingWs (collapseWs (stripTags l))).reverse.dropWhile isPySpace := by
    show (trimWs (collapseWs (stripTags l))).reverse = _
    unfold trimWs
    rw [List.reverse_reverse]
  have h2 : ((dropLeadingWs (collapseWs (stripTags l))).reverse.dropWhile
      isPySpace).head? = some c := by
    rw [← hrev, List.head?_reverse]
    exact h
  exact head?_dropWhile isPySpace _ c h2

/-- C8: the sanitizer returns absent for absent or empty input and
whenever cleaning leaves nothing (never returning the empty string), and
every returned string contains no tag-pattern match, has every whitespace
character collapsed to a single space with no two adjacent spaces, and is
trimmed (no leading or trailing whitespace). -/
theorem c8_strip_html_props :
    strip_html none = none ∧
    (∀ s r, strip_html (some s) = some r →
      r ≠ "" ∧ hasTagB r.data = false ∧ allWsSingle r.data = true ∧
      noDoubleSpace r.data = true ∧
      (∀ c, r.data.head? = some c → isPySpace c = false) ∧
      (∀ c, r.data.getLast? = some c → isPySpace c = false)) ∧
    (∀ s, strip_html (some s) = none ↔ (s = "" ∨ cleanChars s.data = [])) ∧
    (∀ s, strip_html (some s) ≠ some ("")) := by
  refine ⟨rfl, ?_, ?_, ?_⟩
  · intro s r h
    by_cases hs : s = ""
    · simp [strip_html, hs] at h
    · by_cases hcl : (cleanChars s.data).isEmpty = true
      · simp [strip_html, hs, hcl] at h
      · have hre : String.mk (cleanChars s.data) = r := by
          simpa [strip_html, hs, hcl] using h
        have hdata : r.data = cleanChars s.data := by
          rw [← hre]
        refine ⟨?_, ?_, ?_, ?_, ?_, ?_⟩
        · intro h0
          rw [h0] at hdata
          have : cleanChars s.data = [] := hdata.symm
          simp [this] at hcl
        · rw [hdata]; exact cleanChars_noTag s.data
        · rw [hdata]; exact cleanChars_allWs s.data
        · rw [hdata]; exact cleanChars_noDouble s.data
        · intro c hc
          rw [hdata] at hc
          exact cleanChars_head s.data c hc
        · intro c hc
          rw [hdata] at hc
          exact cleanChars_last s.data c hc
  · intro s
    by_cases hs : s = ""
    · simp [strip_html, hs]
    · by_cases hcl : (cleanChars s.data).isEmpty = true
      · have : cleanChars s.data = [] := by simpa [List.isEmpty_iff] using hcl
        simp [strip_html, hs, hcl, this]
      · have : ¬ cleanChars s.data = [] := by
          simpa [List.isEmpty_iff] using hcl
        simp [strip_html, hs, hcl, this]
  · intro s h
    by_cases hs : s = ""
    · simp [strip_html, hs] at h
    · by_cases hcl : (cleanChars s.data).isEmpty = true
      · simp [strip_html, hs, hcl] at h
      · have hre : String.mk (cleanChars s.data) = "" := by
          simpa [strip_html, hs, hcl] using h
        have : cleanChars s.data = [] := congrArg String.data hre
        simp [this] at hcl

/-- C8 witness: sanitizing a concrete markup-and-whitespace string gives a
clean string with all the stated properties, and an all-markup string
gives absent. -/
theorem c8_strip_html_props_witness :
    strip_html (some ("  <b>Hello</b> <br/>   world  ")) = some ("Hello world") ∧
    ("Hello world" : String) ≠ "" ∧
    hasTagB ("Hello world").data = false ∧
    strip_html (some ("<p>  </p> ")) = none := by
  have h : strip_html (some ("  <b>Hello</b> <br/>   world  ")) = some ("Hello world") := by
    decide
  have h2 := c8_strip_html_props.2.1 ("  <b>Hello</b> <br/>   world  ") ("Hello world") h
  exact ⟨h, h2.1, h2.2.1, by decide⟩

end RUEventsHub
